import Mathlib

/-!
# NMT Lunabotics 2022: motor and actuator control layer

A shallow embedding of three source files:

* `src/ros/robot_kbd/src/controller.cpp` (keyboard teleoperation: `Motor`, `NavMotor`,
  `TeleopLunabotics`);
* `src/ros/catkin_ws/src/david_motor/src/teknic.cpp` (`TeknicMotor`);
* `src/ros/catkin_ws/src/david_action/src/pitch.cpp` (`PitchAction`).

Conventions of the embedding.

* Side effects are recorded, in program order, in an explicit list returned next to the new
  state: the service requests of `controller.cpp` (its console and debug output is left out),
  the hardware-node writes and sleeps of `teknic.cpp`, and the GPIO writes, sleeps, published
  messages, action-server calls and console output of `pitch.cpp`.
* The scalar type of C++ `double` and `float` values is a parameter `α`; the arithmetic of the
  source is kept as written (`*`, `+`, `-`, `/`, `^`), so statements that only need the shape of
  an expression hold for every interpretation of the operators, while algebraic statements are
  made for exact arithmetic (a commutative ring, `ℚ` or `ℝ`).
* Steady-clock readings are integers counting nanoseconds; the values returned by successive
  calls of `steady_clock::now()` are an input list of the model, consumed in order. A run that
  needs more readings than the list holds is reported as not yet returned.
* `goal->goal_state` is an integer that the cast to `Goal` leaves unchanged.
-/

namespace Controller

/-! ## `controller.cpp` -/

/-- Key codes, `#define KEYCODE_*` of `controller.cpp`. -/
def KEYCODE_RIGHT : Nat := 0x43
/-- Key code of the left arrow. -/
def KEYCODE_LEFT : Nat := 0x44
/-- Key code of the up arrow. -/
def KEYCODE_UP : Nat := 0x41
/-- Key code of the down arrow. -/
def KEYCODE_DOWN : Nat := 0x42
/-- Key code of `q`. -/
def KEYCODE_Q : Nat := 0x71

/-- A value of the field `Motor::pos_`: a number, or
`std::numeric_limits<double>::infinity()`, which `Motor::setVelocity` stores there. -/
inductive Dbl (α : Type) where
  | finite (x : α)
  | infinity
  deriving DecidableEq, Repr

/-- One `ros::service::call(path, srv)` with a `webots_ros::set_float` request:
the service path and `srv.request.value`. -/
structure ServiceCall (α : Type) where
  path : String
  value : Dbl α
  deriving DecidableEq, Repr

/-- Fields of `class Motor`. -/
structure Motor (α : Type) where
  pos_ : Dbl α
  vel_ : α
  pos_path_ : String
  vel_path_ : String
  deriving DecidableEq, Repr

/-- `Motor::update`: one call of the position service with `pos_`, then one call of the
velocity service with `vel_`. -/
def Motor.update {α : Type} (m : Motor α) : List (ServiceCall α) :=
  [⟨m.pos_path_, m.pos_⟩, ⟨m.vel_path_, Dbl.finite m.vel_⟩]

/-- `Motor::Motor(string path)`: zero position and velocity, the two service paths, and a
first `update()`. -/
def Motor.new {α : Type} [Zero α] (path : String) : Motor α × List (ServiceCall α) :=
  let m : Motor α :=
    { pos_ := Dbl.finite 0, vel_ := 0,
      pos_path_ := path ++ "/set_position", vel_path_ := path ++ "/set_velocity" }
  (m, m.update)

/-- `Motor::setVelocity`: `pos_` becomes infinity, `vel_` the argument, then `update()`. -/
def Motor.setVelocity {α : Type} (m : Motor α) (vel : α) : Motor α × List (ServiceCall α) :=
  let m1 : Motor α := { m with pos_ := Dbl.infinity, vel_ := vel }
  (m1, m1.update)

/-- `Motor::setPosition`: `pos_` becomes the argument, `vel_` is left alone, then `update()`. -/
def Motor.setPosition {α : Type} (m : Motor α) (pos : α) : Motor α × List (ServiceCall α) :=
  let m1 : Motor α := { m with pos_ := Dbl.finite pos }
  (m1, m1.update)

/-- Fields of `class NavMotor`: the motor (held by value) and the wheel mix vector. -/
structure NavMotor (α : Type) where
  motor_ : Motor α
  mot_vec_ : α × α
  deriving DecidableEq, Repr

/-- `NavMotor::nav`: the dot product of the mix vector with the navigation vector is handed to
`motor_.setVelocity`. -/
def NavMotor.nav {α : Type} [Mul α] [Add α] (n : NavMotor α) (nav_vec : α × α) :
    NavMotor α × List (ServiceCall α) :=
  let dot := n.mot_vec_.1 * nav_vec.1 + n.mot_vec_.2 * nav_vec.2
  let r := n.motor_.setVelocity dot
  ({ n with motor_ := r.1 }, r.2)

/-- Fields of `class TeleopLunabotics`. -/
structure TeleopLunabotics (α : Type) where
  back_left_ : NavMotor α
  back_right_ : NavMotor α
  front_left_ : NavMotor α
  front_right_ : NavMotor α
  robot_path_ : String
  deriving DecidableEq, Repr

/-- `TeleopLunabotics::TeleopLunabotics(string path)`: the four wheels in member
initialisation order, with the service calls of the four `Motor` constructors. -/
def TeleopLunabotics.new {α : Type} [Zero α] [One α] (path : String) :
    TeleopLunabotics α × List (ServiceCall α) :=
  let bl := Motor.new (path ++ "/motor2")
  let br := Motor.new (path ++ "/motor4")
  let fl := Motor.new (path ++ "/motor1")
  let fr := Motor.new (path ++ "/motor3")
  ({ back_left_ := ⟨bl.1, (1, 0)⟩, back_right_ := ⟨br.1, (0, 1)⟩,
     front_left_ := ⟨fl.1, (1, 0)⟩, front_right_ := ⟨fr.1, (0, 1)⟩,
     robot_path_ := path },
   bl.2 ++ br.2 ++ fl.2 ++ fr.2)

/-- Outcome of one `KeyboardReader::readOne(&c)` on POSIX: `read` stored one byte, `read`
returned 0 and left `c` alone, or `read` failed and `readOne` threw. -/
inductive ReadResult where
  | byte (c : Nat)
  | eof
  | error
  deriving DecidableEq, Repr

/-- How a run of `keyLoop` over a finite list of reads ended. -/
inductive LoopExit where
  | quit
  | readFailed
  | awaitingInput
  deriving DecidableEq, Repr

/-- State of a run of `keyLoop`: the object, the local `nav`, the service calls so far. -/
structure LoopRun (α : Type) where
  teleop : TeleopLunabotics α
  nav : α × α
  calls : List (ServiceCall α)
  exit : LoopExit
  deriving DecidableEq, Repr

/-- The `switch (c)` of `keyLoop`: the new value of `nav`, or `none` for the quit key. -/
def keySwitch {α : Type} [One α] [Neg α] (c : Nat) (nav : α × α) : Option (α × α) :=
  if c = KEYCODE_LEFT then some (-1, 1)
  else if c = KEYCODE_RIGHT then some (1, -1)
  else if c = KEYCODE_UP then some (1, 1)
  else if c = KEYCODE_DOWN then some (-1, -1)
  else if c = KEYCODE_Q then none
  else some nav

/-- The four `nav` calls that end one iteration of `keyLoop`, in source order. -/
def navAll {α : Type} [Mul α] [Add α] (t : TeleopLunabotics α) (nav : α × α) :
    TeleopLunabotics α × List (ServiceCall α) :=
  let bl := t.back_left_.nav nav
  let br := t.back_right_.nav nav
  let fl := t.front_left_.nav nav
  let fr := t.front_right_.nav nav
  ({ t with back_left_ := bl.1, back_right_ := br.1, front_left_ := fl.1, front_right_ := fr.1 },
   bl.2 ++ br.2 ++ fl.2 ++ fr.2)

/-- The `while (1)` of `keyLoop`, run over the results of the successive `readOne` calls.
`c` is the current content of the local `char c`, `nav` the local navigation vector. -/
def keyLoopFrom {α : Type} [Mul α] [Add α] [One α] [Neg α]
    (t : TeleopLunabotics α) (c : Nat) (nav : α × α) (calls : List (ServiceCall α)) :
    List ReadResult → LoopRun α
  | [] => ⟨t, nav, calls, LoopExit.awaitingInput⟩
  | ReadResult.error :: _ => ⟨t, nav, calls, LoopExit.readFailed⟩
  | r :: rest =>
    let c1 := match r with
      | ReadResult.byte b => b
      | _ => c
    match keySwitch c1 nav with
    | none => ⟨t, nav, calls, LoopExit.quit⟩
    | some nav1 =>
      let s := navAll t nav1
      keyLoopFrom s.1 c1 nav1 (calls ++ s.2) rest

/-- `TeleopLunabotics::keyLoop`: `nav` starts as `(0, 0)`; `c0` is the indeterminate initial
content of the uninitialised `char c`. -/
def keyLoop {α : Type} [Mul α] [Add α] [Zero α] [One α] [Neg α]
    (t : TeleopLunabotics α) (c0 : Nat) (reads : List ReadResult) : LoopRun α :=
  keyLoopFrom t c0 (0, 0) [] reads

/-- The values sent to the service at `path`, in order. -/
def valuesSentTo {α : Type} (path : String) (calls : List (ServiceCall α)) : List (Dbl α) :=
  (calls.filter (fun s => s.path == path)).map (fun s => s.value)

end Controller

namespace Teknic

/-! ## `teknic.cpp` -/

/-- What `TeknicMotor` does to the outside world: a `_node.setVel(v)` on the hardware node,
or the inter-tick `sleep_for` (in microseconds). -/
inductive HwEvent (α : Type) where
  | setVel (v : α)
  | sleepMicros (us : Nat)
  deriving DecidableEq, Repr

/-- State of a `TeknicMotor`: the velocity target shared by `setVelocity` and the manager
thread. -/
structure TeknicMotor (α : Type) where
  _vel_target : α
  deriving DecidableEq, Repr

/-- `TeknicMotor::setVelocity`: `_vel_target = vel`, nothing else. -/
def TeknicMotor.setVelocity {α : Type} (m : TeknicMotor α) (vel : α) :
    TeknicMotor α × List (HwEvent α) :=
  ({ m with _vel_target := vel }, [])

/-- One iteration of the `while (true)` of `TeknicMotor::motor_manager`:
`_node.setVel(_vel_target)`, then a sleep of `1000000 / MANAGER_RESOLUTION` microseconds.
`MANAGER_RESOLUTION` is declared in a header outside the embedded sources and is a parameter. -/
def TeknicMotor.motor_manager_tick {α : Type} (MANAGER_RESOLUTION : Nat) (m : TeknicMotor α) :
    TeknicMotor α × List (HwEvent α) :=
  (m, [HwEvent.setVel m._vel_target, HwEvent.sleepMicros (1000000 / MANAGER_RESOLUTION)])

/-- A sequence of `setVelocity` calls, in order, with the hardware events they cause. -/
def setVelocityAll {α : Type} (m : TeknicMotor α) : List α → TeknicMotor α × List (HwEvent α)
  | [] => (m, [])
  | x :: xs =>
    let r := m.setVelocity x
    let r2 := setVelocityAll r.1 xs
    (r2.1, r.2 ++ r2.2)

/-- The values written to the hardware node among a list of events. -/
def nodeWrites {α : Type} : List (HwEvent α) → List α
  | [] => []
  | HwEvent.setVel v :: es => v :: nodeWrites es
  | HwEvent.sleepMicros _ :: es => nodeWrites es

end Teknic

namespace Pitch

/-! ## `pitch.cpp` -/

/-- A `GPIOOut` object, identified by the pin number given to its constructor. -/
structure GPIOOut where
  pin : Nat
  deriving DecidableEq, Repr

/-- The members of `class PitchAction` that `executeCB` uses. -/
structure PitchAction where
  _action_name : String
  _home : GPIOOut
  _extend : GPIOOut
  _retract : GPIOOut
  _half_extend : GPIOOut
  deriving DecidableEq, Repr

/-- `PitchAction::PitchAction(string name)`: the pin numbers of the four lines. -/
def PitchAction.new (name : String) : PitchAction :=
  { _action_name := name, _home := ⟨21⟩, _extend := ⟨20⟩, _retract := ⟨12⟩,
    _half_extend := ⟨16⟩ }

/-- A `sensor_msgs::JointState` as filled by `executeCB`. -/
structure JointState (α : Type) where
  name : List String
  position : List α
  velocity : List α
  effort : List α
  deriving DecidableEq, Repr

/-- Observable actions of `executeCB`, in program order. `publishFeedback` carries the value
of the expression assigned to `feedback.progress`. -/
inductive Event (α : Type) where
  | cout (s : String)
  | coutValue (x : α)
  | cerrInvalidGoal (goal_state : Int)
  | gpioSet (pin : Nat) (value : Bool)
  | sleepMs (ms : Nat)
  | publishFeedback (progress : Int)
  | publishJoint (msg : JointState α)
  | setSucceeded
  deriving DecidableEq, Repr

/-- Result of running `executeCB`: the actions performed, and whether the function returned
(`false`: the supplied clock readings ran out while the wait loop was still running). -/
structure Run (α : Type) where
  trace : List (Event α)
  returned : Bool
  deriving DecidableEq, Repr

/-- The first `switch ((Goal)goal->goal_state)`: the line to pulse, `none` in the `default`
branch. `HOME = 0`, `EXTEND = 1`, `RETRACT = 2`, `HALF_EXTEND = 3`. -/
def pinSwitch (self : PitchAction) (goal_state : Int) : Option GPIOOut :=
  if goal_state = 0 then some self._home
  else if goal_state = 1 then some self._extend
  else if goal_state = 2 then some self._retract
  else if goal_state = 3 then some self._half_extend
  else none

/-- Extension length for a retracted actuator, in metres. -/
def extend_close {α : Type} [Field α] : α := 0.46
/-- Extension length for a half extended actuator. -/
def extend_half {α : Type} [Field α] : α := 0.51
/-- Extension length for a fully extended actuator. -/
def extend_full {α : Type} [Field α] : α := 0.675
/-- Measured fixed side, rear pivot to forward hinge. -/
def rear_pivot_2_fwd_hinge {α : Type} [Field α] : α := 0.71
/-- Measured fixed side, forward hinge to mount bracket. -/
def fwd_hinge_2_mount_bracket {α : Type} [Field α] : α := 0.39

/-- The second `switch ((Goal)goal->goal_state)`: the extension length, `none` in the
`default` branch. -/
def lengthSwitch {α : Type} [Field α] (goal_state : Int) : Option α :=
  if goal_state = 0 then some extend_close
  else if goal_state = 1 then some extend_full
  else if goal_state = 2 then some extend_close
  else if goal_state = 3 then some extend_half
  else none

/-- The argument that the closure `compute_angle` passes to `acos`. -/
def acosArg {α : Type} [Field α] (a c b : α) : α :=
  (a ^ 2 + c ^ 2 - b ^ 2) / (2 * a * c)

/-- The closure `compute_angle` of `executeCB`; the library function `acos` is a parameter. -/
def compute_angle {α : Type} [Field α] (acos : α → α) (a c b : α) : α :=
  3.14159 - acos (acosArg a c b)

/-- The value of `time_wait = seconds(50)` in clock ticks (nanoseconds). -/
def time_wait : Int := 50 * 1000000000

/-- The wait loop of `executeCB`. `start` and `current` are the locals of the same name, the
list holds the values returned by the following calls of `steady_clock::now()`. Each iteration
reads the clock, publishes `(current - start) / time_wait` (a division of two durations, which
is a division of their integer tick counts) and sleeps 100 ms. The flag is `true` when the loop
condition became false, `false` when the readings ran out first. -/
def waitLoop {α : Type} (start : Int) : Int → List Int → List (Event α) × Bool
  | current, [] => if current - start < time_wait then ([], false) else ([], true)
  | current, r :: rest =>
    if current - start < time_wait then
      let w := waitLoop start r rest
      (Event.publishFeedback ((r - start).tdiv time_wait) :: Event.sleepMs 100 :: w.1, w.2)
    else ([], true)

/-- `PitchAction::executeCB`, for a goal whose `goal_state` is the given integer, under the
given clock readings. -/
def executeCB {α : Type} [Field α] (acos : α → α) (self : PitchAction) (goal_state : Int)
    (clock : List Int) : Run α :=
  let t0 : List (Event α) := [Event.cout "Entered ExecuteCB"]
  match pinSwitch self goal_state with
  | none => ⟨t0 ++ [Event.cerrInvalidGoal goal_state], true⟩
  | some pin =>
    let t1 := t0 ++ [Event.gpioSet pin.pin true, Event.sleepMs 100, Event.gpioSet pin.pin false]
    match lengthSwitch goal_state with
    | none => ⟨t1 ++ [Event.cerrInvalidGoal goal_state], true⟩
    | some extend_length =>
      let a : α := fwd_hinge_2_mount_bracket
      let c : α := rear_pivot_2_fwd_hinge
      let angle := compute_angle acos a c extend_length
      let t2 := t1 ++ [Event.coutValue extend_length]
      let msg : JointState α :=
        { name := ["R_pitch"], position := [angle], velocity := [0], effort := [0] }
      match clock with
      | start :: current :: rest =>
        let w := waitLoop start current rest
        if w.2 then
          ⟨t2 ++ w.1 ++ [Event.publishJoint msg, Event.cout "Message published",
            Event.setSucceeded], true⟩
        else ⟨t2 ++ w.1, false⟩
      | _ => ⟨t2, false⟩

/-- The GPIO writes of a trace, in order. -/
def gpioWrites {α : Type} (es : List (Event α)) : List (Nat × Bool) :=
  es.filterMap (fun e => match e with
    | Event.gpioSet p v => some (p, v)
    | _ => none)

/-- The progress values published in a trace, in order. -/
def progressValues {α : Type} (es : List (Event α)) : List Int :=
  es.filterMap (fun e => match e with
    | Event.publishFeedback p => some p
    | _ => none)

/-- The joint states published in a trace, in order. -/
def jointStates {α : Type} (es : List (Event α)) : List (JointState α) :=
  es.filterMap (fun e => match e with
    | Event.publishJoint m => some m
    | _ => none)

/-- The number of times a trace reports success to the action server. -/
def successReports {α : Type} (es : List (Event α)) : Nat :=
  (es.filterMap (fun e => match e with
    | Event.setSucceeded => some ()
    | _ => none)).length

/-- The invalid-goal warnings of a trace, in order. -/
def invalidGoalWarnings {α : Type} (es : List (Event α)) : List Int :=
  es.filterMap (fun e => match e with
    | Event.cerrInvalidGoal g => some g
    | _ => none)

/-- The clock readings that the wait loop consumes: one per iteration. -/
def readingsUsed (start : Int) : Int → List Int → List Int
  | _, [] => []
  | current, r :: rest =>
    if current - start < time_wait then r :: readingsUsed start r rest else []

end Pitch

/-! ## Theorems about `controller.cpp` -/

namespace Controller

/-- C1: `NavMotor::nav(v)` performs exactly one `Motor::setVelocity`, seen as one request on the
motor's velocity service (next to the request on its position service that every `update()`
sends, carrying infinity), the commanded value is `m.x*v.x + m.y*v.y` for the mix vector `m`
of the wheel, and the mix vector is unchanged by the call. -/
theorem nav_commands_dot_product {α : Type} [Mul α] [Add α] (n : NavMotor α) (v : α × α) :
    (n.nav v).2 =
        [⟨n.motor_.pos_path_, Dbl.infinity⟩,
         ⟨n.motor_.vel_path_, Dbl.finite (n.mot_vec_.1 * v.1 + n.mot_vec_.2 * v.2)⟩] ∧
      (n.nav v).1.motor_.vel_ = n.mot_vec_.1 * v.1 + n.mot_vec_.2 * v.2 ∧
      (n.nav v).1.mot_vec_ = n.mot_vec_ := by
  refine ⟨rfl, rfl, rfl⟩

/-- C10: the value that `NavMotor::nav` commands is additive and homogeneous in the navigation
vector, for exact arithmetic (any commutative ring): if `nav` commands `x1` for `v1` and `x2`
for `v2`, it commands `x1 + x2` for `v1 + v2` and `k * x1` for `k * v1`. -/
theorem nav_bilinear {α : Type} [CommRing α] (n : NavMotor α) (v1 v2 : α × α) (k : α) :
    ∃ x1 x2 : α,
      (n.nav v1).2 = [⟨n.motor_.pos_path_, Dbl.infinity⟩, ⟨n.motor_.vel_path_, Dbl.finite x1⟩] ∧
      (n.nav v2).2 = [⟨n.motor_.pos_path_, Dbl.infinity⟩, ⟨n.motor_.vel_path_, Dbl.finite x2⟩] ∧
      (n.nav (v1.1 + v2.1, v1.2 + v2.2)).2 =
        [⟨n.motor_.pos_path_, Dbl.infinity⟩, ⟨n.motor_.vel_path_, Dbl.finite (x1 + x2)⟩] ∧
      (n.nav (k * v1.1, k * v1.2)).2 =
        [⟨n.motor_.pos_path_, Dbl.infinity⟩, ⟨n.motor_.vel_path_, Dbl.finite (k * x1)⟩] := by
  refine ⟨n.mot_vec_.1 * v1.1 + n.mot_vec_.2 * v1.2, n.mot_vec_.1 * v2.1 + n.mot_vec_.2 * v2.2,
    rfl, rfl, ?_, ?_⟩
  · have h : n.mot_vec_.1 * (v1.1 + v2.1) + n.mot_vec_.2 * (v1.2 + v2.2)
        = n.mot_vec_.1 * v1.1 + n.mot_vec_.2 * v1.2
          + (n.mot_vec_.1 * v2.1 + n.mot_vec_.2 * v2.2) := by ring
    simp only [NavMotor.nav, Motor.setVelocity, Motor.update, h]
  · have h : n.mot_vec_.1 * (k * v1.1) + n.mot_vec_.2 * (k * v1.2)
        = k * (n.mot_vec_.1 * v1.1 + n.mot_vec_.2 * v1.2) := by ring
    simp only [NavMotor.nav, Motor.setVelocity, Motor.update, h]

/-- C2, as the code behaves: after the constructor, when `keyLoop` reads the UP key as its
first key, `nav` becomes `(1, 1)` and all four wheels are commanded velocity `1`: the wheels
built with mix `(1, 0)` (`motor2`, `motor1`) and the wheels built with mix `(0, 1)` (`motor4`,
`motor3`) alike. -/
theorem forward_key_commands_one {α : Type} [Ring α] (path : String) (c0 : Nat) :
    ((TeleopLunabotics.new path).1.back_left_.mot_vec_ = ((1 : α), (0 : α)) ∧
      (TeleopLunabotics.new path).1.back_right_.mot_vec_ = ((0 : α), (1 : α)) ∧
      (TeleopLunabotics.new path).1.front_left_.mot_vec_ = ((1 : α), (0 : α)) ∧
      (TeleopLunabotics.new path).1.front_right_.mot_vec_ = ((0 : α), (1 : α))) ∧
    (keyLoop (TeleopLunabotics.new path).1 c0 [ReadResult.byte KEYCODE_UP]).nav
      = ((1 : α), (1 : α)) ∧
    (keyLoop (TeleopLunabotics.new path).1 c0 [ReadResult.byte KEYCODE_UP]).calls =
      [⟨path ++ "/motor2" ++ "/set_position", Dbl.infinity⟩,
       ⟨path ++ "/motor2" ++ "/set_velocity", Dbl.finite (1 : α)⟩,
       ⟨path ++ "/motor4" ++ "/set_position", Dbl.infinity⟩,
       ⟨path ++ "/motor4" ++ "/set_velocity", Dbl.finite (1 : α)⟩,
       ⟨path ++ "/motor1" ++ "/set_position", Dbl.infinity⟩,
       ⟨path ++ "/motor1" ++ "/set_velocity", Dbl.finite (1 : α)⟩,
       ⟨path ++ "/motor3" ++ "/set_position", Dbl.infinity⟩,
       ⟨path ++ "/motor3" ++ "/set_velocity", Dbl.finite (1 : α)⟩] := by
  refine ⟨⟨rfl, rfl, rfl, rfl⟩, ?_, ?_⟩
  · simp [keyLoop, keyLoopFrom, keySwitch, KEYCODE_UP, KEYCODE_LEFT, KEYCODE_RIGHT]
  · simp [keyLoop, keyLoopFrom, keySwitch, KEYCODE_UP, KEYCODE_LEFT, KEYCODE_RIGHT, navAll,
      NavMotor.nav, Motor.setVelocity, Motor.update, TeleopLunabotics.new, Motor.new]

/-- C2, as stated, fails: with robot path `/robot`, after the UP key the wheel `back_right_`,
built with mix `(0, 1)`, receives exactly one velocity request and its value is `1`, not `0`. -/
theorem forward_key_mix01_not_zero :
    (TeleopLunabotics.new (α := ℚ) "/robot").1.back_right_.mot_vec_ = (0, 1) ∧
    (TeleopLunabotics.new (α := ℚ) "/robot").1.back_right_.motor_.vel_path_
      = "/robot/motor4/set_velocity" ∧
    valuesSentTo "/robot/motor4/set_velocity"
      (keyLoop (TeleopLunabotics.new (α := ℚ) "/robot").1 0 [ReadResult.byte 0x41]).calls
      = [Dbl.finite 1] ∧
    valuesSentTo "/robot/motor4/set_velocity"
      (keyLoop (TeleopLunabotics.new (α := ℚ) "/robot").1 0 [ReadResult.byte 0x41]).calls
      ≠ [Dbl.finite 0] := by
  refine ⟨rfl, by decide, ?_, ?_⟩ <;>
  simp [keyLoop, keyLoopFrom, keySwitch, KEYCODE_UP, KEYCODE_LEFT, KEYCODE_RIGHT, navAll,
    NavMotor.nav, Motor.setVelocity, Motor.update, TeleopLunabotics.new, Motor.new,
    valuesSentTo, List.filter]

end Controller

/-! ## Theorems about `teknic.cpp` -/

namespace Teknic

/-- Calls of `setVelocity` cause no hardware event. -/
theorem setVelocityAll_events {α : Type} (xs : List α) (m : TeknicMotor α) :
    (setVelocityAll m xs).2 = [] := by
  induction xs generalizing m with
  | nil => rfl
  | cons x xs ih => simp [setVelocityAll, TeknicMotor.setVelocity, ih]

/-- After a sequence of `setVelocity` calls the target is the last value written, or the old
target when there was no call. -/
theorem setVelocityAll_target {α : Type} (xs : List α) (m : TeknicMotor α) :
    (setVelocityAll m xs).1._vel_target = (xs.getLast?).getD m._vel_target := by
  induction xs generalizing m with
  | nil => rfl
  | cons x xs ih =>
    simp only [setVelocityAll, ih, TeknicMotor.setVelocity]
    cases xs with
    | nil => rfl
    | cons y ys =>
      rw [List.getLast?_cons_cons, List.getLast?_eq_getLast (y :: ys) (List.cons_ne_nil y ys)]
      rfl

/-- C6: with `TeknicMotor` as a state holding one velocity target, for every non-empty
sequence of `setVelocity` calls made before a tick of `motor_manager`, the calls themselves
write nothing to the hardware node, and the tick writes exactly one value to the node, the
value of the last call (so none of the earlier ones). -/
theorem last_write_wins {α : Type} (res : Nat) (m : TeknicMotor α) (xs : List α)
    (hne : xs ≠ []) :
    nodeWrites (setVelocityAll m xs).2 = [] ∧
      (setVelocityAll m xs).2 = [] ∧
      nodeWrites ((setVelocityAll m xs).1.motor_manager_tick res).2 = [xs.getLast hne] ∧
      ((setVelocityAll m xs).1.motor_manager_tick res).1._vel_target = xs.getLast hne := by
  have ht := setVelocityAll_target xs m
  rw [List.getLast?_eq_getLast xs hne] at ht
  simp only [Option.getD_some] at ht
  refine ⟨?_, setVelocityAll_events xs m, ?_, ?_⟩
  · rw [setVelocityAll_events]; rfl
  · simp [TeknicMotor.motor_manager_tick, nodeWrites, ht]
  · simp [TeknicMotor.motor_manager_tick, ht]

/-- C6 at the scenario of the specification: `setVelocity(5.0)` then `setVelocity(-3.0)`
before a tick makes the tick write `-3.0`, and only that. -/
theorem last_write_wins_witness :
    ([(5.0 : ℚ), -3.0] ≠ []) ∧
      nodeWrites ((setVelocityAll (⟨0⟩ : TeknicMotor ℚ) [5.0, -3.0]).1.motor_manager_tick
        1000).2 = [-3.0] :=
  ⟨by simp, (last_write_wins 1000 (⟨0⟩ : TeknicMotor ℚ) [5.0, -3.0] (by simp)).2.2.1⟩

end Teknic

/-! ## Theorems about `pitch.cpp` -/

namespace Pitch

/-- The wait loop publishes one progress value per reading it consumes: the quotient of the
tick counts of `current - start` and `time_wait`. -/
theorem progressValues_waitLoop {α : Type} (start : Int) (rest : List Int) (current : Int) :
    progressValues (waitLoop (α := α) start current rest).1
      = (readingsUsed start current rest).map (fun r => (r - start).tdiv time_wait) := by
  induction rest generalizing current with
  | nil => simp only [waitLoop, readingsUsed]; split <;> rfl
  | cons r rest ih =>
    simp only [waitLoop, readingsUsed]
    split
    · have := ih r
      simp only [progressValues] at this
      simp [progressValues, this]
    · rfl

/-- The wait loop writes no GPIO line. -/
theorem gpioWrites_waitLoop {α : Type} (start : Int) (rest : List Int) (current : Int) :
    gpioWrites (waitLoop (α := α) start current rest).1 = [] := by
  induction rest generalizing current with
  | nil => simp only [waitLoop]; split <;> rfl
  | cons r rest ih =>
    simp only [waitLoop]
    split
    · have := ih r
      simp only [gpioWrites] at this
      simp [gpioWrites, this]
    · rfl

/-- The wait loop prints no invalid-goal warning. -/
theorem invalidGoalWarnings_waitLoop {α : Type} (start : Int) (rest : List Int)
    (current : Int) :
    invalidGoalWarnings (waitLoop (α := α) start current rest).1 = [] := by
  induction rest generalizing current with
  | nil => simp only [waitLoop]; split <;> rfl
  | cons r rest ih =>
    simp only [waitLoop]
    split
    · have := ih r
      simp only [invalidGoalWarnings] at this
      simp [invalidGoalWarnings, this]
    · rfl

/-- The wait loop terminates as soon as the clock supplies a reading at or past the budget:
a list of readings that holds one is enough for `waitLoop` to end. -/
theorem waitLoop_terminates {α : Type} (start : Int) (rest : List Int) (current : Int)
    (hr : ∃ r ∈ rest, time_wait ≤ r - start) :
    (waitLoop (α := α) start current rest).2 = true := by
  induction rest generalizing current with
  | nil => simp at hr
  | cons x xs ih =>
    simp only [waitLoop]
    split
    · by_cases hx : time_wait ≤ x - start
      · cases xs with
        | nil => simp [waitLoop, not_lt.2 hx]
        | cons y ys => simp [waitLoop, not_lt.2 hx]
      · obtain ⟨r, hmem, hge⟩ := hr
        rcases List.mem_cons.1 hmem with h | h
        · exact absurd (h ▸ hge) hx
        · exact ih x ⟨r, h, hge⟩
    · rfl

/-- The quotient published as progress, for a non-negative elapsed tick count. -/
theorem progress_quotient (e : Int) (he : 0 ≤ e) :
    0 ≤ e.tdiv time_wait ∧ e.tdiv time_wait * time_wait ≤ e ∧
      e < (e.tdiv time_wait + 1) * time_wait := by
  have htw : (0 : Int) < time_wait := by decide
  rw [Int.tdiv_eq_ediv he (le_of_lt htw)]
  refine ⟨Int.ediv_nonneg he (le_of_lt htw), Int.ediv_mul_le e (ne_of_gt htw), ?_⟩
  exact Int.lt_ediv_add_one_mul_self e htw

/-- A recognised goal kind passes both switches. -/
theorem switches_of_recognised {α : Type} [Field α] (self : PitchAction) (goal_state : Int)
    (h : goal_state = 0 ∨ goal_state = 1 ∨ goal_state = 2 ∨ goal_state = 3) :
    ∃ (pin : GPIOOut) (len : α),
      pinSwitch self goal_state = some pin ∧ lengthSwitch goal_state = some len := by
  rcases h with h | h | h | h <;> subst h <;> simp [pinSwitch, lengthSwitch]

/-- The run of `executeCB` once both switches have selected a line and a length. -/
theorem executeCB_accepted {α : Type} [Field α] (acos : α → α) (self : PitchAction)
    (goal_state : Int) (pin : GPIOOut) (len : α)
    (hp : pinSwitch self goal_state = some pin) (hl : lengthSwitch goal_state = some len)
    (start current : Int) (rest : List Int) :
    (executeCB acos self goal_state (start :: current :: rest)).trace =
      [Event.cout "Entered ExecuteCB", Event.gpioSet pin.pin true, Event.sleepMs 100,
        Event.gpioSet pin.pin false, Event.coutValue len]
        ++ (waitLoop start current rest).1
        ++ (if (waitLoop (α := α) start current rest).2 then
            [Event.publishJoint
              { name := ["R_pitch"],
                position := [compute_angle acos fwd_hinge_2_mount_bracket
                  rear_pivot_2_fwd_hinge len],
                velocity := [0], effort := [0] },
             Event.cout "Message published", Event.setSucceeded]
          else []) ∧
    (executeCB acos self goal_state (start :: current :: rest)).returned
      = (waitLoop (α := α) start current rest).2 := by
  simp only [executeCB, hp, hl]
  split <;> simp_all

/-- The run of `executeCB` on a recognised goal when fewer than two clock readings are
supplied. -/
theorem executeCB_accepted_short {α : Type} [Field α] (acos : α → α) (self : PitchAction)
    (goal_state : Int) (pin : GPIOOut) (len : α)
    (hp : pinSwitch self goal_state = some pin) (hl : lengthSwitch goal_state = some len)
    (clock : List Int) (hc : clock.length < 2) :
    (executeCB acos self goal_state clock).trace =
      [Event.cout "Entered ExecuteCB", Event.gpioSet pin.pin true, Event.sleepMs 100,
        Event.gpioSet pin.pin false, Event.coutValue len] := by
  simp only [executeCB, hp, hl]
  match clock, hc with
  | [], _ => rfl
  | [_], _ => rfl
  | _ :: _ :: _, hc => exact absurd hc (by simp)

/-- The progress values of a run on a recognised goal are those of its wait loop. -/
theorem progressValues_executeCB {α : Type} [Field α] (acos : α → α) (self : PitchAction)
    (goal_state : Int)
    (h : goal_state = 0 ∨ goal_state = 1 ∨ goal_state = 2 ∨ goal_state = 3)
    (start current : Int) (rest : List Int) :
    progressValues (executeCB acos self goal_state (start :: current :: rest)).trace
      = (readingsUsed start current rest).map (fun r => (r - start).tdiv time_wait) := by
  obtain ⟨pin, len, hp, hl⟩ := switches_of_recognised (α := α) self goal_state h
  rw [(executeCB_accepted acos self goal_state pin len hp hl start current rest).1]
  have hw := progressValues_waitLoop (α := α) start rest current
  simp only [progressValues] at hw ⊢
  rw [List.filterMap_append, List.filterMap_append, hw]
  split <;> simp

/-- Shape of every run on a goal that passed both switches: the pulse on the selected line
comes first, and nothing after it writes a GPIO line or warns about the goal. -/
theorem executeCB_accepted_shape {α : Type} [Field α] (acos : α → α) (self : PitchAction)
    (goal_state : Int) (pin : GPIOOut) (len : α)
    (hp : pinSwitch self goal_state = some pin) (hl : lengthSwitch goal_state = some len)
    (clock : List Int) :
    ∃ tail : List (Event α),
      (executeCB acos self goal_state clock).trace =
        [Event.cout "Entered ExecuteCB", Event.gpioSet pin.pin true, Event.sleepMs 100,
          Event.gpioSet pin.pin false] ++ tail ∧
      gpioWrites tail = [] ∧ invalidGoalWarnings tail = [] := by
  match clock with
  | [] =>
    exact ⟨[Event.coutValue len],
      executeCB_accepted_short acos self goal_state pin len hp hl [] (by simp), rfl, rfl⟩
  | [x] =>
    exact ⟨[Event.coutValue len],
      executeCB_accepted_short acos self goal_state pin len hp hl [x] (by simp), rfl, rfl⟩
  | start :: current :: rest =>
    refine ⟨[Event.coutValue len] ++ (waitLoop start current rest).1
        ++ (if (waitLoop (α := α) start current rest).2 then
            [Event.publishJoint
              { name := ["R_pitch"],
                position := [compute_angle acos fwd_hinge_2_mount_bracket
                  rear_pivot_2_fwd_hinge len],
                velocity := [0], effort := [0] },
             Event.cout "Message published", Event.setSucceeded]
          else []), by
      rw [(executeCB_accepted acos self goal_state pin len hp hl start current rest).1]
      simp, ?_, ?_⟩
    · have hw := gpioWrites_waitLoop (α := α) start rest current
      simp only [gpioWrites] at hw ⊢
      rw [List.filterMap_append, List.filterMap_append, hw]
      split <;> simp
    · have hw := invalidGoalWarnings_waitLoop (α := α) start rest current
      simp only [invalidGoalWarnings] at hw ⊢
      rw [List.filterMap_append, List.filterMap_append, hw]
      split <;> simp

/-- C3: for every goal whose `goal_state` is none of 0 (HOME), 1 (EXTEND), 2 (RETRACT),
3 (HALF_EXTEND), `executeCB` only prints its entry line and the invalid-goal warning and
returns: no GPIO line is written (neither `true` nor `false`), no progress feedback is
emitted, no JointState is published and no success is reported. -/
theorem invalid_goal_no_action {α : Type} [Field α] (acos : α → α) (self : PitchAction)
    (goal_state : Int) (clock : List Int)
    (h : goal_state ≠ 0 ∧ goal_state ≠ 1 ∧ goal_state ≠ 2 ∧ goal_state ≠ 3) :
    (executeCB acos self goal_state clock).trace =
        [Event.cout "Entered ExecuteCB", Event.cerrInvalidGoal goal_state] ∧
      (executeCB acos self goal_state clock).returned = true ∧
      gpioWrites (executeCB acos self goal_state clock).trace = [] ∧
      progressValues (executeCB acos self goal_state clock).trace = [] ∧
      jointStates (executeCB acos self goal_state clock).trace = [] ∧
      successReports (executeCB acos self goal_state clock).trace = 0 := by
  obtain ⟨h0, h1, h2, h3⟩ := h
  have hp : pinSwitch self goal_state = none := by simp [pinSwitch, h0, h1, h2, h3]
  have ht : executeCB acos self goal_state clock =
      ⟨[Event.cout "Entered ExecuteCB", Event.cerrInvalidGoal goal_state], true⟩ := by
    simp only [executeCB, hp]
    rfl
  rw [ht]
  exact ⟨rfl, rfl, rfl, rfl, rfl, rfl⟩

/-- C3 at `goal_state = 4`, under clock readings that would let a valid goal finish. -/
theorem invalid_goal_no_action_witness :
    ((4 : Int) ≠ 0 ∧ (4 : Int) ≠ 1 ∧ (4 : Int) ≠ 2 ∧ (4 : Int) ≠ 3) ∧
      (executeCB (α := ℚ) id (PitchAction.new "pitch") 4 [0, 50000000000]).trace =
        [Event.cout "Entered ExecuteCB", Event.cerrInvalidGoal 4] :=
  ⟨by decide,
    (invalid_goal_no_action (α := ℚ) id (PitchAction.new "pitch") 4 [0, 50000000000]
      (by decide)).1⟩

/-- C8: for each recognised goal kind, on the object built by the constructor, `executeCB`
writes exactly one GPIO line, the one of that kind (21 for HOME, 20 for EXTEND, 12 for RETRACT,
16 for HALF_EXTEND, pairwise distinct); the writes are `true` then `false`, they come right
after the entry message and so before any feedback or JointState publication, and nothing after
them writes a GPIO line. -/
theorem pulses_exactly_one_line {α : Type} [Field α] (acos : α → α) (name : String)
    (goal_state : Int) (clock : List Int)
    (h : goal_state = 0 ∨ goal_state = 1 ∨ goal_state = 2 ∨ goal_state = 3) :
    ∃ (pin : GPIOOut) (tail : List (Event α)),
      pinSwitch (PitchAction.new name) goal_state = some pin ∧
      pin.pin = (if goal_state = 0 then 21 else if goal_state = 1 then 20
        else if goal_state = 2 then 12 else 16) ∧
      (executeCB acos (PitchAction.new name) goal_state clock).trace =
        [Event.cout "Entered ExecuteCB", Event.gpioSet pin.pin true, Event.sleepMs 100,
          Event.gpioSet pin.pin false] ++ tail ∧
      gpioWrites tail = [] ∧
      gpioWrites (executeCB acos (PitchAction.new name) goal_state clock).trace =
        [(pin.pin, true), (pin.pin, false)] ∧
      [(PitchAction.new name)._home.pin, (PitchAction.new name)._extend.pin,
        (PitchAction.new name)._retract.pin, (PitchAction.new name)._half_extend.pin].Nodup := by
  obtain ⟨pin, len, hp, hl⟩ := switches_of_recognised (α := α) (PitchAction.new name) goal_state h
  obtain ⟨tail, ht, hg, -⟩ :=
    executeCB_accepted_shape acos (PitchAction.new name) goal_state pin len hp hl clock
  refine ⟨pin, tail, hp, ?_, ht, hg, ?_, by simp [PitchAction.new]⟩
  · rcases h with h | h | h | h <;> subst h <;>
      simp [pinSwitch, PitchAction.new] at hp <;> subst hp <;> rfl
  · rw [ht]
    simp only [gpioWrites] at hg ⊢
    rw [List.filterMap_append, hg]
    rfl

/-- C8 for the EXTEND goal on a run that completes at once: pin 20 is pulsed, no other. -/
theorem pulses_exactly_one_line_witness :
    ((1 : Int) = 0 ∨ (1 : Int) = 1 ∨ (1 : Int) = 2 ∨ (1 : Int) = 3) ∧
      ∃ (pin : GPIOOut) (tail : List (Event ℚ)),
        pinSwitch (PitchAction.new "pitch") 1 = some pin ∧
        pin.pin = (if (1 : Int) = 0 then 21 else if (1 : Int) = 1 then 20
          else if (1 : Int) = 2 then 12 else 16) ∧
        (executeCB id (PitchAction.new "pitch") 1 [0, 50000000000]).trace =
          [Event.cout "Entered ExecuteCB", Event.gpioSet pin.pin true, Event.sleepMs 100,
            Event.gpioSet pin.pin false] ++ tail ∧
        gpioWrites tail = [] ∧
        gpioWrites (executeCB (α := ℚ) id (PitchAction.new "pitch") 1 [0, 50000000000]).trace =
          [(pin.pin, true), (pin.pin, false)] ∧
        [(PitchAction.new "pitch")._home.pin, (PitchAction.new "pitch")._extend.pin,
          (PitchAction.new "pitch")._retract.pin,
          (PitchAction.new "pitch")._half_extend.pin].Nodup :=
  ⟨by decide,
    pulses_exactly_one_line (α := ℚ) id "pitch" 1 [0, 50000000000] (by decide)⟩

/-- The wait loop publishes no joint state. -/
theorem jointStates_waitLoop {α : Type} (start : Int) (rest : List Int) (current : Int) :
    jointStates (waitLoop (α := α) start current rest).1 = [] := by
  induction rest generalizing current with
  | nil => simp only [waitLoop]; split <;> rfl
  | cons r rest ih =>
    simp only [waitLoop]
    split
    · have := ih r
      simp only [jointStates] at this
      simp [jointStates, this]
    · rfl

/-- The joint state of a run on a goal that passed both switches: a run that returns publishes
exactly one, whose position is `3.14159 - acos x` for `x` the quotient built from the two fixed
sides and the selected length; a run that has not returned has published none. -/
theorem jointStates_executeCB_accepted {α : Type} [Field α] (acos : α → α)
    (self : PitchAction) (goal_state : Int) (pin : GPIOOut) (len : α)
    (hp : pinSwitch self goal_state = some pin) (hl : lengthSwitch goal_state = some len)
    (clock : List Int) :
    jointStates (executeCB acos self goal_state clock).trace =
      if (executeCB acos self goal_state clock).returned = true then
        [{ name := ["R_pitch"],
           position := [3.14159 - acos
             ((fwd_hinge_2_mount_bracket ^ 2 + rear_pivot_2_fwd_hinge ^ 2 - len ^ 2)
               / (2 * fwd_hinge_2_mount_bracket * rear_pivot_2_fwd_hinge))],
           velocity := [0], effort := [0] }]
      else [] := by
  match clock with
  | [] => simp [executeCB, hp, hl, jointStates]
  | [x] => simp [executeCB, hp, hl, jointStates]
  | start :: current :: rest =>
    obtain ⟨ht, hr⟩ := executeCB_accepted acos self goal_state pin len hp hl start current rest
    rw [ht, hr]
    have hw := jointStates_waitLoop (α := α) start rest current
    simp only [jointStates] at hw ⊢
    rw [List.filterMap_append, List.filterMap_append, hw]
    split <;> simp [compute_angle, acosArg]

/-- A run on a goal that passed both switches returns when the second clock reading is one
budget after the first. -/
theorem executeCB_returns_at_budget {α : Type} [Field α] (acos : α → α) (self : PitchAction)
    (goal_state : Int) (pin : GPIOOut) (len : α)
    (hp : pinSwitch self goal_state = some pin) (hl : lengthSwitch goal_state = some len)
    (start : Int) :
    (executeCB acos self goal_state [start, start + time_wait]).returned = true := by
  rw [(executeCB_accepted acos self goal_state pin len hp hl start (start + time_wait) []).2]
  simp [waitLoop]

/-- The second switch selects the same length over the reals as over the rationals. -/
theorem lengthSwitch_cast (goal_state : Int) (b : ℚ) (hl : lengthSwitch goal_state = some b) :
    lengthSwitch (α := ℝ) goal_state = some (b : ℝ) := by
  unfold lengthSwitch at hl ⊢
  split_ifs at hl ⊢ <;> simp only [Option.some.injEq] at hl ⊢ <;>
    (rw [← hl]; norm_num [extend_close, extend_full, extend_half])

/-- C9: whenever the first switch accepts the goal, the second switch yields a length `b`
(0.46 for HOME and RETRACT, 0.675 for EXTEND, 0.51 for HALF_EXTEND), so its invalid-kind branch
is never taken and no run prints the warning; `b` satisfies `|a - c| ≤ b ≤ a + c` for the fixed
sides `a = 0.39`, `c = 0.71`. The argument that `executeCB` hands to `acos` is
`x = (0.39^2 + 0.71^2 - b^2) / (2 * 0.39 * 0.71)`: for every function put in the place of
`acos`, `compute_angle` returns `3.14159 - acos x`, every run that returns publishes exactly the
JointState with position `3.14159 - acos x` (and runs do return, for instance when the second
clock reading is one budget after the first), also with the real arc cosine. This `x` lies in
`[-1, 1]`, where the real arc cosine is a true inverse of the cosine (the angle is defined). -/
theorem lengths_within_triangle (self : PitchAction) (goal_state : Int) (pin : GPIOOut)
    (h : pinSwitch self goal_state = some pin) :
    ∃ b : ℚ,
      lengthSwitch goal_state = some b ∧
      ((goal_state = 0 ∨ goal_state = 2) → b = 0.46) ∧
      (goal_state = 1 → b = 0.675) ∧ (goal_state = 3 → b = 0.51) ∧
      (fwd_hinge_2_mount_bracket : ℚ) = 0.39 ∧ (rear_pivot_2_fwd_hinge : ℚ) = 0.71 ∧
      |fwd_hinge_2_mount_bracket - rear_pivot_2_fwd_hinge| ≤ b ∧
      b ≤ fwd_hinge_2_mount_bracket + rear_pivot_2_fwd_hinge ∧
      -1 ≤ acosArg fwd_hinge_2_mount_bracket rear_pivot_2_fwd_hinge b ∧
      acosArg fwd_hinge_2_mount_bracket rear_pivot_2_fwd_hinge b ≤ 1 ∧
      Real.cos (Real.arccos
          ((acosArg fwd_hinge_2_mount_bracket rear_pivot_2_fwd_hinge b : ℚ) : ℝ))
        = ((acosArg fwd_hinge_2_mount_bracket rear_pivot_2_fwd_hinge b : ℚ) : ℝ) ∧
      (∀ (acos : ℚ → ℚ) (clock : List Int),
        invalidGoalWarnings (executeCB acos self goal_state clock).trace = []) ∧
      acosArg fwd_hinge_2_mount_bracket rear_pivot_2_fwd_hinge b
        = (0.39 ^ 2 + 0.71 ^ 2 - b ^ 2) / (2 * 0.39 * 0.71) ∧
      (∀ acos : ℚ → ℚ,
        compute_angle acos fwd_hinge_2_mount_bracket rear_pivot_2_fwd_hinge b
          = 3.14159 - acos ((0.39 ^ 2 + 0.71 ^ 2 - b ^ 2) / (2 * 0.39 * 0.71))) ∧
      (∀ (acos : ℚ → ℚ) (clock : List Int),
        jointStates (executeCB acos self goal_state clock).trace =
          if (executeCB acos self goal_state clock).returned = true then
            [{ name := ["R_pitch"],
               position := [3.14159 - acos ((0.39 ^ 2 + 0.71 ^ 2 - b ^ 2) / (2 * 0.39 * 0.71))],
               velocity := [0], effort := [0] }]
          else []) ∧
      (∀ (acos : ℚ → ℚ) (start : Int),
        (executeCB acos self goal_state [start, start + time_wait]).returned = true) ∧
      (∀ clock : List Int,
        jointStates (executeCB Real.arccos self goal_state clock).trace =
          if (executeCB Real.arccos self goal_state clock).returned = true then
            [{ name := ["R_pitch"],
               position := [3.14159 - Real.arccos
                 (((0.39 ^ 2 + 0.71 ^ 2 - b ^ 2) / (2 * 0.39 * 0.71) : ℚ) : ℝ)],
               velocity := [0], effort := [0] }]
          else []) ∧
      (-1 : ℝ) ≤ (((0.39 ^ 2 + 0.71 ^ 2 - b ^ 2) / (2 * 0.39 * 0.71) : ℚ) : ℝ) ∧
      (((0.39 ^ 2 + 0.71 ^ 2 - b ^ 2) / (2 * 0.39 * 0.71) : ℚ) : ℝ) ≤ 1 := by
  have hv : goal_state = 0 ∨ goal_state = 1 ∨ goal_state = 2 ∨ goal_state = 3 := by
    by_contra hcon
    push_neg at hcon
    simp [pinSwitch, hcon.1, hcon.2.1, hcon.2.2.1, hcon.2.2.2] at h
  obtain ⟨pin1, b, hp, hl⟩ := switches_of_recognised (α := ℚ) self goal_state hv
  have hb : b = 0.46 ∨ b = 0.675 ∨ b = 0.51 := by
    rcases hv with h0 | h0 | h0 | h0 <;> subst h0 <;>
      simp [lengthSwitch, extend_close, extend_full, extend_half] at hl <;> simp [← hl]
  have hlo : (-1 : ℚ) ≤ acosArg fwd_hinge_2_mount_bracket rear_pivot_2_fwd_hinge b := by
    rcases hb with hb | hb | hb <;> subst hb <;>
      norm_num [acosArg, fwd_hinge_2_mount_bracket, rear_pivot_2_fwd_hinge]
  have hhi : acosArg fwd_hinge_2_mount_bracket rear_pivot_2_fwd_hinge b ≤ (1 : ℚ) := by
    rcases hb with hb | hb | hb <;> subst hb <;>
      norm_num [acosArg, fwd_hinge_2_mount_bracket, rear_pivot_2_fwd_hinge]
  have harg : acosArg (fwd_hinge_2_mount_bracket : ℚ) rear_pivot_2_fwd_hinge b
      = (0.39 ^ 2 + 0.71 ^ 2 - b ^ 2) / (2 * 0.39 * 0.71) := rfl
  have hcast : ((fwd_hinge_2_mount_bracket : ℝ) ^ 2 + rear_pivot_2_fwd_hinge ^ 2
        - (b : ℝ) ^ 2) / (2 * fwd_hinge_2_mount_bracket * rear_pivot_2_fwd_hinge)
      = (((0.39 ^ 2 + 0.71 ^ 2 - b ^ 2) / (2 * 0.39 * 0.71) : ℚ) : ℝ) := by
    simp only [fwd_hinge_2_mount_bracket, rear_pivot_2_fwd_hinge]
    push_cast
    norm_num
  refine ⟨b, hl, ?_, ?_, ?_, rfl, rfl, ?_, ?_, hlo, hhi, ?_, ?_, harg, ?_, ?_, ?_, ?_, ?_, ?_⟩
  · rintro (h0 | h0) <;> subst h0 <;>
      simp [lengthSwitch, extend_close] at hl <;> simp [← hl]
  · rintro h0; subst h0
    simp [lengthSwitch, extend_full] at hl; simp [← hl]
  · rintro h0; subst h0
    simp [lengthSwitch, extend_half] at hl; simp [← hl]
  · rcases hb with hb | hb | hb <;> subst hb <;>
      norm_num [fwd_hinge_2_mount_bracket, rear_pivot_2_fwd_hinge, abs_le]
  · rcases hb with hb | hb | hb <;> subst hb <;>
      norm_num [fwd_hinge_2_mount_bracket, rear_pivot_2_fwd_hinge]
  · apply Real.cos_arccos
    · exact_mod_cast hlo
    · exact_mod_cast hhi
  · intro acos clock
    obtain ⟨tail, ht, -, hw⟩ :=
      executeCB_accepted_shape acos self goal_state pin1 b hp hl clock
    rw [ht]
    simp only [invalidGoalWarnings] at hw ⊢
    rw [List.filterMap_append, hw]
    rfl
  · intro acos
    rfl
  · intro acos clock
    rw [jointStates_executeCB_accepted acos self goal_state pin1 b hp hl clock]
    rfl
  · intro acos start
    exact executeCB_returns_at_budget acos self goal_state pin1 b hp hl start
  · intro clock
    rw [jointStates_executeCB_accepted Real.arccos self goal_state pin1 (b : ℝ) hp
      (lengthSwitch_cast goal_state b hl) clock, hcast]
  · rw [← harg]
    exact_mod_cast hlo
  · rw [← harg]
    exact_mod_cast hhi

/-- C9 for the HALF_EXTEND goal on the object built by the constructor: the length is
selected, the argument of `acos` is in `[-1, 1]`, and the run under the clock readings 0 s and
50 s returns and publishes the angle computed from that argument. -/
theorem lengths_within_triangle_witness :
    pinSwitch (PitchAction.new "pitch") 3 = some ⟨16⟩ ∧
      ∃ b : ℚ, lengthSwitch 3 = some b ∧
        -1 ≤ acosArg fwd_hinge_2_mount_bracket rear_pivot_2_fwd_hinge b ∧
        acosArg fwd_hinge_2_mount_bracket rear_pivot_2_fwd_hinge b ≤ 1 ∧
        (executeCB (α := ℚ) id (PitchAction.new "pitch") 3 [0, 0 + time_wait]).returned
          = true ∧
        jointStates (executeCB (α := ℚ) id (PitchAction.new "pitch") 3
            [0, 0 + time_wait]).trace =
          if (executeCB (α := ℚ) id (PitchAction.new "pitch") 3 [0, 0 + time_wait]).returned
              = true then
            [{ name := ["R_pitch"],
               position := [3.14159 - id ((0.39 ^ 2 + 0.71 ^ 2 - b ^ 2) / (2 * 0.39 * 0.71))],
               velocity := [0], effort := [0] }]
          else [] :=
  ⟨by decide,
    (lengths_within_triangle (PitchAction.new "pitch") 3 ⟨16⟩ (by decide)).imp
      (fun _ hb => by
        obtain ⟨h1, -, -, -, -, -, -, -, h9, h10, -, -, -, -, h15, h16, -⟩ := hb
        exact ⟨h1, h9, h10, h16 id 0, h15 id [0, 0 + time_wait]⟩)⟩

/-- Before the budget has elapsed the published quotient is always zero. -/
theorem progress_zero_before_budget (e : Int) (h0 : 0 ≤ e) (h1 : e < time_wait) :
    e.tdiv time_wait = 0 := by
  obtain ⟨p0, p1, p2⟩ := progress_quotient e h0
  simp only [time_wait] at h1 p1 p2 ⊢
  omega

/-- C4 at its failing input: for the EXTEND goal under the clock readings 0 s, 0 s, 25 s, 50 s
the run returns and the progress values published are 0 and then 1. The emission at
elapsed = 25 s carries 0, the integer quotient of the two tick counts, where the claim
requires the fraction `25 / 50` clamped to `[0, 1]`, which is `1 / 2`. -/
theorem progress_at_25s_is_zero :
    (executeCB (α := ℚ) id (PitchAction.new "pitch") 1
        [0, 0, 25000000000, 50000000000]).returned = true ∧
      progressValues (executeCB (α := ℚ) id (PitchAction.new "pitch") 1
        [0, 0, 25000000000, 50000000000]).trace = [0, 1] ∧
      min (max ((((25000000000 : Int) - 0 : Int) : ℚ) / ((time_wait : Int) : ℚ)) 0) 1
        = 1 / 2 ∧
      ((0 : Int) : ℚ) ≠ 1 / 2 := by
  refine ⟨by decide, ?_, ?_, by norm_num⟩
  · rw [progressValues_executeCB _ _ _ (by decide)]
    decide
  · norm_num [time_wait]

/-- A lower bound for the cosine at 1.1996, from `1 - x ^ 2 / 2 ≤ cos x` at `1.1996 / 16` and
four angle doublings. -/
theorem cos_11996_lower : (0.3624 : ℝ) < Real.cos 1.1996 := by
  have h4 : (0.997189374687 : ℝ) ≤ Real.cos (1.1996 / 16) := by
    have h := Real.one_sub_sq_div_two_le_cos (x := 1.1996 / 16)
    norm_num at h ⊢
    linarith
  have h3 : (0.988773297977 : ℝ) ≤ Real.cos (1.1996 / 8) := by
    have e : (1.1996 / 8 : ℝ) = 2 * (1.1996 / 16) := by norm_num
    rw [e, Real.cos_two_mul]
    nlinarith [sq_nonneg (Real.cos (1.1996 / 16) - 0.997189374687)]
  have h2 : (0.955345269584 : ℝ) ≤ Real.cos (1.1996 / 4) := by
    have e : (1.1996 / 4 : ℝ) = 2 * (1.1996 / 8) := by norm_num
    rw [e, Real.cos_two_mul]
    nlinarith [sq_nonneg (Real.cos (1.1996 / 8) - 0.988773297977)]
  have h1 : (0.825369168233 : ℝ) ≤ Real.cos (1.1996 / 2) := by
    have e : (1.1996 / 2 : ℝ) = 2 * (1.1996 / 4) := by norm_num
    rw [e, Real.cos_two_mul]
    nlinarith [sq_nonneg (Real.cos (1.1996 / 4) - 0.955345269584)]
  have e : (1.1996 : ℝ) = 2 * (1.1996 / 2) := by norm_num
  rw [e, Real.cos_two_mul]
  nlinarith [sq_nonneg (Real.cos (1.1996 / 2) - 0.825369168233)]

/-- An upper bound for the cosine at 1.2015, from the fourth-order bound at `1.2015 / 8` and
three angle doublings. -/
theorem cos_12015_upper : Real.cos 1.2015 < (0.3613 : ℝ) := by
  have nonneg : ∀ t : ℝ, |t| ≤ 1 → 0 ≤ Real.cos t := fun t ht =>
    le_of_lt (Real.cos_pos_of_le_one ht)
  have h3 : Real.cos (1.2015 / 8) ≤ (0.988748356693 : ℝ) := by
    have h := Real.cos_bound (x := 1.2015 / 8) (by rw [abs_le]; constructor <;> norm_num)
    rw [abs_le] at h
    have h' := h.2
    rw [abs_of_nonneg (by norm_num : (0 : ℝ) ≤ 1.2015 / 8)] at h'
    norm_num at h' ⊢
    linarith
  have p3 := nonneg (1.2015 / 8) (by rw [abs_le]; constructor <;> norm_num)
  have h2 : Real.cos (1.2015 / 4) ≤ (0.955246625727 : ℝ) := by
    have e : (1.2015 / 4 : ℝ) = 2 * (1.2015 / 8) := by norm_num
    rw [e, Real.cos_two_mul]
    nlinarith [pow_le_pow_left₀ p3 h3 2]
  have p2 := nonneg (1.2015 / 4) (by rw [abs_le]; constructor <;> norm_num)
  have h1 : Real.cos (1.2015 / 2) ≤ (0.824992231926 : ℝ) := by
    have e : (1.2015 / 2 : ℝ) = 2 * (1.2015 / 4) := by norm_num
    rw [e, Real.cos_two_mul]
    nlinarith [pow_le_pow_left₀ p2 h2 2]
  have p1 := nonneg (1.2015 / 2) (by rw [abs_le]; constructor <;> norm_num)
  have e : (1.2015 : ℝ) = 2 * (1.2015 / 2) := by norm_num
  rw [e, Real.cos_two_mul]
  nlinarith [pow_le_pow_left₀ p1 h1 2]

/-- The arc cosine of `113 / 312` lies between 1.1996 and 1.2015. -/
theorem arccos_extend_bounds :
    (1.1996 : ℝ) < Real.arccos (113 / 312) ∧ Real.arccos (113 / 312) < (1.2015 : ℝ) := by
  have hx : (113 / 312 : ℝ) ∈ Set.Icc (-1 : ℝ) 1 := by constructor <;> norm_num
  have hpi := Real.pi_gt_three
  constructor
  · have hc : (113 / 312 : ℝ) < Real.cos 1.1996 := by
      have := cos_11996_lower
      norm_num at this ⊢
      linarith
    have hmem : Real.cos 1.1996 ∈ Set.Icc (-1 : ℝ) 1 :=
      ⟨Real.neg_one_le_cos _, Real.cos_le_one _⟩
    have := Real.strictAntiOn_arccos hx hmem hc
    rwa [Real.arccos_cos (by norm_num) (by linarith)] at this
  · have hc : Real.cos 1.2015 < (113 / 312 : ℝ) := by
      have := cos_12015_upper
      norm_num at this ⊢
      linarith
    have hmem : Real.cos 1.2015 ∈ Set.Icc (-1 : ℝ) 1 :=
      ⟨Real.neg_one_le_cos _, Real.cos_le_one _⟩
    have := Real.strictAntiOn_arccos hmem hx hc
    rwa [Real.arccos_cos (by norm_num) (by linarith)] at this

/-- The joint state published by a completed run of the EXTEND goal. -/
theorem jointStates_extend (self : PitchAction) (start current : Int) (rest : List Int)
    (hret : (executeCB Real.arccos self 1 (start :: current :: rest)).returned = true) :
    jointStates (executeCB Real.arccos self 1 (start :: current :: rest)).trace =
      [{ name := ["R_pitch"],
         position := [compute_angle Real.arccos fwd_hinge_2_mount_bracket
           rear_pivot_2_fwd_hinge extend_full],
         velocity := [0], effort := [0] }] := by
  have hp : pinSwitch self 1 = some self._extend := by simp [pinSwitch]
  have hl : lengthSwitch (α := ℝ) 1 = some extend_full := by simp [lengthSwitch]
  obtain ⟨ht, hr⟩ := executeCB_accepted Real.arccos self 1 self._extend extend_full hp hl
    start current rest
  rw [hr] at hret
  rw [ht, hret]
  have hw : jointStates (waitLoop (α := ℝ) start current rest).1 = [] := by
    clear ht hr hret
    induction rest generalizing current with
    | nil => simp only [waitLoop]; split <;> rfl
    | cons r rest ih =>
      simp only [waitLoop]
      split
      · have := ih r
        simp only [jointStates] at this
        simp [jointStates, this]
      · rfl
  simp only [jointStates] at hw ⊢
  rw [List.filterMap_append, List.filterMap_append, hw]
  simp

/-- C7, as the code behaves: for the EXTEND goal `executeCB` uses the length 0.675 with sides
`a = 0.39` and `c = 0.71`, and the angle in the JointState of a completed run is
`3.14159 - acos((0.39^2 + 0.71^2 - 0.675^2) / (2 * 0.39 * 0.71))` (the source writes the
constant 3.14159 for pi), which is within 0.001 of 1.941 rad and within 0.000003 of the same
expression with pi. Arithmetic is exact real arithmetic with the real arc cosine. -/
theorem extend_angle_value (self : PitchAction) (start current : Int) (rest : List Int)
    (hret : (executeCB Real.arccos self 1 (start :: current :: rest)).returned = true) :
    lengthSwitch (α := ℝ) 1 = some 0.675 ∧
      (fwd_hinge_2_mount_bracket : ℝ) = 0.39 ∧ (rear_pivot_2_fwd_hinge : ℝ) = 0.71 ∧
      jointStates (executeCB Real.arccos self 1 (start :: current :: rest)).trace =
        [{ name := ["R_pitch"],
           position := [3.14159 - Real.arccos
             ((0.39 ^ 2 + 0.71 ^ 2 - 0.675 ^ 2) / (2 * 0.39 * 0.71))],
           velocity := [0], effort := [0] }] ∧
      |(3.14159 - Real.arccos ((0.39 ^ 2 + 0.71 ^ 2 - 0.675 ^ 2) / (2 * 0.39 * 0.71)) : ℝ)
          - 1.941| < 0.001 ∧
      |(3.14159 - Real.arccos ((0.39 ^ 2 + 0.71 ^ 2 - 0.675 ^ 2) / (2 * 0.39 * 0.71)) : ℝ)
          - (Real.pi - Real.arccos ((0.39 ^ 2 + 0.71 ^ 2 - 0.675 ^ 2) / (2 * 0.39 * 0.71)))|
        < 0.000003 := by
  have harg : ((0.39 ^ 2 + 0.71 ^ 2 - 0.675 ^ 2) / (2 * 0.39 * 0.71) : ℝ) = 113 / 312 := by
    norm_num
  obtain ⟨hlo, hhi⟩ := arccos_extend_bounds
  refine ⟨by simp [lengthSwitch, extend_full], rfl, rfl, ?_, ?_, ?_⟩
  · rw [jointStates_extend self start current rest hret]
    rfl
  · rw [harg, abs_lt]
    constructor <;> norm_num <;> linarith
  · have h1 := Real.pi_gt_d6
    have h2 := Real.pi_lt_d6
    rw [abs_lt]
    constructor <;> norm_num at h1 h2 ⊢ <;> linarith

/-- C7 (amended) on a run whose second clock reading is already 50 s after the first. -/
theorem extend_angle_value_witness :
    (executeCB Real.arccos (PitchAction.new "pitch") 1 [0, 50000000000]).returned = true ∧
      |(3.14159 - Real.arccos ((0.39 ^ 2 + 0.71 ^ 2 - 0.675 ^ 2) / (2 * 0.39 * 0.71)) : ℝ)
          - 1.941| < 0.001 :=
  ⟨by simp [executeCB, pinSwitch, lengthSwitch, waitLoop, time_wait],
    (extend_angle_value (PitchAction.new "pitch") 0 50000000000 []
      (by simp [executeCB, pinSwitch, lengthSwitch, waitLoop, time_wait])).2.2.2.2.1⟩

/-- C7, as stated, fails: on a completed run of the EXTEND goal the published angle is above
1.94 rad, so it is not within 0.001 of 1.702, and it differs from the expression with pi. -/
theorem extend_angle_not_1702 :
    jointStates (executeCB Real.arccos (PitchAction.new "pitch") 1 [0, 50000000000]).trace =
        [{ name := ["R_pitch"],
           position := [compute_angle Real.arccos 0.39 0.71 0.675],
           velocity := [0], effort := [0] }] ∧
      (1.94 : ℝ) < compute_angle Real.arccos 0.39 0.71 0.675 ∧
      ¬ (|compute_angle Real.arccos (0.39 : ℝ) 0.71 0.675 - 1.702| ≤ 0.001) ∧
      compute_angle Real.arccos (0.39 : ℝ) 0.71 0.675
        ≠ Real.pi - Real.arccos ((0.39 ^ 2 + 0.71 ^ 2 - 0.675 ^ 2) / (2 * 0.39 * 0.71)) := by
  have harg : acosArg (0.39 : ℝ) 0.71 0.675 = 113 / 312 := by norm_num [acosArg]
  have harg2 : ((0.39 ^ 2 + 0.71 ^ 2 - 0.675 ^ 2) / (2 * 0.39 * 0.71) : ℝ) = 113 / 312 := by
    norm_num
  obtain ⟨hlo, hhi⟩ := arccos_extend_bounds
  have hgt : (1.94 : ℝ) < compute_angle Real.arccos 0.39 0.71 0.675 := by
    simp only [compute_angle, harg]
    norm_num
    linarith
  refine ⟨?_, hgt, ?_, ?_⟩
  · rw [jointStates_extend (PitchAction.new "pitch") 0 50000000000 []
      (by simp [executeCB, pinSwitch, lengthSwitch, waitLoop, time_wait])]
    rfl
  · rw [abs_le]
    rintro ⟨-, h2⟩
    norm_num at hgt h2
    linarith
  · simp only [compute_angle, harg, harg2]
    have h1 := Real.pi_gt_d6
    intro hcon
    norm_num at h1
    linarith

end Pitch
